import Mathlib

/-!
Verification of the two image-pipeline scripts of this repository:
`MockupGenerator.py` (frame-and-mat compositor plus generative-API client)
and `BannerCollageMaker.py` (grid compositor, vignette, pool expansion).

Shallow embedding conventions:
* a raster image is modelled by its integer dimensions (`Img`); where pixel
  contents matter (the vignette) a `Canvas` carries a pixel function;
* PIL's `Image.crop`, `Image.resize` and `ImageOps.expand` are modelled by
  their effect on dimensions, exactly as the library documents them;
* Python float expressions such as `tw / th` and `int(x)` are modelled with
  exact rationals and `Int.floor` (all values involved are nonnegative);
* Python `//` on nonnegative ints is `Nat` division;
* the HTTP layer of `generate_mockup_with_gemini` is modelled by an oracle
  `Nat → GeminiResp` giving the outcome of each POST attempt; the function
  returns the decoded result together with the list of back-off sleeps it
  performed and the number of POST attempts it made;
* the filesystem seen by `main`'s scene loop is a map `String → Option Nat`
  from path to file content (`none` = absent).
-/

namespace Etsy

/-- A raster image, reduced to its dimensions (width, height). -/
structure Img where
  w : Nat
  h : Nat
deriving DecidableEq

/-- MockupGenerator.py line 43: pixels for the black frame. -/
def FRAME_THICKNESS : Nat := 50

/-- MockupGenerator.py line 44: pixels for the white mat. -/
def MAT_THICKNESS : Nat := 80

/-- MockupGenerator.py line 52: initial wait after an HTTP 429. -/
def RETRY_DELAY : Nat := 5

/-- PIL `img.crop((left, upper, right, lower))`, effect on dimensions. -/
def crop (_img : Img) (left upper right lower : Nat) : Img :=
  ⟨right - left, lower - upper⟩

/-- PIL `ImageOps.expand(img, border)`: adds `border` pixels on every side. -/
def expand (img : Img) (border : Nat) : Img :=
  ⟨img.w + 2 * border, img.h + 2 * border⟩

/-- PIL `img.resize((tw, th))`: output has exactly the requested dimensions. -/
def resize (_img : Img) (tw th : Nat) : Img :=
  ⟨tw, th⟩

/-- MockupGenerator.py lines 73-74: `3/2` for landscape (`iw > ih`), else `2/3`. -/
def target_aspect (photo : Img) : ℚ :=
  if photo.w > photo.h then 3 / 2 else 2 / 3

/-- MockupGenerator.py lines 75-88: the center-crop step of `add_frame_and_mat`.
`img_aspect = iw / ih`; crop only when it differs from the target by more than
0.01; crop width when wider than target, height when taller. `new_width =
int(target_aspect * ih)`, `offset = (iw - new_width) // 2`, crop box
`(offset, 0, iw - offset, ih)` (and symmetrically for height). -/
def cropped_photo (photo : Img) : Img :=
  if |(photo.w : ℚ) / (photo.h : ℚ) - target_aspect photo| > 1 / 100 then
    if (photo.w : ℚ) / (photo.h : ℚ) > target_aspect photo then
      crop photo ((photo.w - ⌊target_aspect photo * (photo.h : ℚ)⌋.toNat) / 2) 0
        (photo.w - (photo.w - ⌊target_aspect photo * (photo.h : ℚ)⌋.toNat) / 2) photo.h
    else
      crop photo 0 ((photo.h - ⌊(photo.w : ℚ) / target_aspect photo⌋.toNat) / 2)
        photo.w (photo.h - (photo.h - ⌊(photo.w : ℚ) / target_aspect photo⌋.toNat) / 2)
  else photo

/-- MockupGenerator.py lines 64-96: crop to 3:2 or 2:3, then mat then frame.
A zero-height input raises `ZeroDivisionError` at `iw / ih`, which the
`except` clause turns into `None`. -/
def add_frame_and_mat (photo : Img) : Option Img :=
  if photo.h = 0 then none
  else some (expand (expand (cropped_photo photo) MAT_THICKNESS) FRAME_THICKNESS)

/-- Outcome of one HTTP POST attempt in `generate_mockup_with_gemini`:
a decoded image payload, a first candidate with `finishReason == 'SAFETY'`,
an otherwise-successful response with a malformed/missing image payload,
a `RequestException` carrying a response with the given status code, or a
`RequestException` with no response at all. -/
inductive GeminiResp where
  | ok (img : Nat)
  | safety
  | badPayload
  | httpErr (status : Nat)
  | netErr
deriving DecidableEq

/-- MockupGenerator.py line 154: `max_retries = 3`. -/
def max_retries : Nat := 3

/-- MockupGenerator.py lines 155-197: the `for attempt in range(max_retries)`
body. `fuel = max_retries - attempt` remaining loop iterations; returns
(result, list of back-off sleeps performed, number of POST attempts made).
A success / safety block / bad payload / non-429 error is terminal; a 429
sleeps `RETRY_DELAY * 2 ** attempt` and retries only while
`attempt < max_retries - 1`; a fully exhausted loop falls through to the
final `return None` (line 197). -/
def geminiLoop (resp : Nat → GeminiResp) : Nat → Nat → Option Nat × List Nat × Nat
  | 0, _ => (none, [], 0)
  | fuel + 1, attempt =>
    match resp attempt with
    | .ok img => (some img, [], 1)
    | .safety => (none, [], 1)
    | .badPayload => (none, [], 1)
    | .netErr => (none, [], 1)
    | .httpErr status =>
      if status = 429 then
        if attempt < max_retries - 1 then
          let rest := geminiLoop resp fuel (attempt + 1)
          (rest.1, RETRY_DELAY * 2 ^ attempt :: rest.2.1, rest.2.2 + 1)
        else (none, [], 1)
      else (none, [], 1)

/-- MockupGenerator.py lines 128-197: `generate_mockup_with_gemini`.
An empty `API_KEY` returns `None` before any network traffic (lines 130-132);
otherwise the retry loop runs with `attempt` starting at 0. -/
def generate_mockup_with_gemini (apiKey : String) (resp : Nat → GeminiResp) :
    Option Nat × List Nat × Nat :=
  if apiKey = "" then (none, [], 0)
  else geminiLoop resp max_retries 0

/-- Observable actions of one iteration of `main`'s scene loop
(MockupGenerator.py lines 225-252), tagged with the scene being processed:
skipping because the output exists, running `add_frame_and_mat`, calling
`generate_mockup_with_gemini`, and saving the generated mockup. -/
inductive Event where
  | skip (scene : String)
  | framing (scene : String)
  | netCall (scene : String)
  | save (scene : String) (img : Nat)
deriving DecidableEq

/-- MockupGenerator.py line 227: `f"{stem}_{scene_name}_mockup.jpg"`. -/
def outName (stem scene : String) : String :=
  stem ++ "_" ++ scene ++ "_mockup.jpg"

/-- MockupGenerator.py lines 225-252: the per-photo scene loop of `main`.
`frameRes` is what `add_frame_and_mat` would return for this photo, `gem`
what `generate_mockup_with_gemini` would return per scene, `framed` the
`framed_art` variable, `fs` the filesystem restricted to the output folder.
If the output file exists the scene is skipped; otherwise the photo is
framed on first need (a framing failure `break`s out of the loop); then the
API is called and a returned mockup is saved to the output path. -/
def sceneLoop (stem : String) (frameRes : Option Nat) (gem : String → Option Nat) :
    List String → Option Nat → (String → Option Nat) →
      List Event × (String → Option Nat)
  | [], _, fs => ([], fs)
  | scene :: rest, framed, fs =>
    if (fs (outName stem scene)).isSome then
      let r := sceneLoop stem frameRes gem rest framed fs
      (Event.skip scene :: r.1, r.2)
    else
      match framed with
      | some f =>
        match gem scene with
        | some img =>
          let fs' := fun p => if p = outName stem scene then some img else fs p
          let r := sceneLoop stem frameRes gem rest (some f) fs'
          (Event.netCall scene :: Event.save scene img :: r.1, r.2)
        | none =>
          let r := sceneLoop stem frameRes gem rest (some f) fs
          (Event.netCall scene :: r.1, r.2)
      | none =>
        match frameRes with
        | none => ([Event.framing scene], fs)
        | some f =>
          match gem scene with
          | some img =>
            let fs' := fun p => if p = outName stem scene then some img else fs p
            let r := sceneLoop stem frameRes gem rest (some f) fs'
            (Event.framing scene :: Event.netCall scene :: Event.save scene img :: r.1, r.2)
          | none =>
            let r := sceneLoop stem frameRes gem rest (some f) fs
            (Event.framing scene :: Event.netCall scene :: r.1, r.2)

/-- BannerCollageMaker.py lines 50-62: center-crop to the target aspect ratio
(`tw / th`) and resize to exactly `(tw, th)`. `new_width = int(target_aspect
* ih)`, `offset = (iw - new_width) // 2`, box `(offset, 0, iw - offset, ih)`;
symmetrically for height; final `img.resize((tw, th), LANCZOS)`. -/
def fit_crop (img : Img) (tw th : Nat) : Img :=
  resize
    (if (img.w : ℚ) / (img.h : ℚ) > (tw : ℚ) / (th : ℚ) then
      crop img ((img.w - ⌊(tw : ℚ) / (th : ℚ) * (img.h : ℚ)⌋.toNat) / 2) 0
        (img.w - (img.w - ⌊(tw : ℚ) / (th : ℚ) * (img.h : ℚ)⌋.toNat) / 2) img.h
    else
      crop img 0 ((img.h - ⌊(img.w : ℚ) / ((tw : ℚ) / (th : ℚ))⌋.toNat) / 2)
        img.w (img.h - (img.h - ⌊(img.w : ℚ) / ((tw : ℚ) / (th : ℚ))⌋.toNat) / 2))
    tw th

/-- BannerCollageMaker.py line 110: `total_cols = 15`. -/
def total_cols : Nat := 15

/-- BannerCollageMaker.py line 110: `total_rows = 6`. -/
def total_rows : Nat := 6

/-- BannerCollageMaker.py line 111: `center_cols = 7`. -/
def center_cols : Nat := 7

/-- BannerCollageMaker.py line 111: `center_rows = 2`. -/
def center_rows : Nat := 2

/-- BannerCollageMaker.py line 127: `start_col = (total_cols - center_cols) // 2`. -/
def start_col : Nat := (total_cols - center_cols) / 2

/-- BannerCollageMaker.py line 128: `end_col = start_col + center_cols`. -/
def end_col : Nat := start_col + center_cols

/-- BannerCollageMaker.py line 129: `start_row = (total_rows - center_rows) // 2`. -/
def start_row : Nat := (total_rows - center_rows) / 2

/-- BannerCollageMaker.py line 130: `end_row = start_row + center_rows`. -/
def end_row : Nat := start_row + center_rows

/-- BannerCollageMaker.py line 119: `center_slots = center_cols * center_rows`. -/
def center_slots : Nat := center_cols * center_rows

/-- BannerCollageMaker.py line 120: `outer_slots = total_cols * total_rows - center_slots`. -/
def outer_slots : Nat := total_cols * total_rows - center_slots

/-- BannerCollageMaker.py line 135: the condition
`start_row <= r < end_row and start_col <= c < end_col`. -/
def inCenter (r c : Nat) : Bool :=
  decide (start_row ≤ r) && decide (r < end_row) &&
    decide (start_col ≤ c) && decide (c < end_col)

/-- Python list repetition `l * k`. -/
def listRepeat (l : List α) : Nat → List α
  | 0 => []
  | k + 1 => l ++ listRepeat l k

/-- BannerCollageMaker.py line 122:
`favs_to_place = (favs * (center_slots // len(favs) + 1))[:center_slots]`. -/
def favs_to_place (favs : List String) : List String :=
  (listRepeat favs (center_slots / favs.length + 1)).take center_slots

/-- BannerCollageMaker.py line 123:
`others_to_place = (others * (outer_slots // len(others) + 1))[:outer_slots]`. -/
def others_to_place (others : List String) : List String :=
  (listRepeat others (outer_slots / others.length + 1)).take outer_slots

/-- The cells visited by the double loop of BannerCollageMaker.py lines
133-134, in order: `for r in range(total_rows): for c in range(total_cols)`. -/
def cellList : List (Nat × Nat) :=
  (List.range total_rows).flatMap fun r => (List.range total_cols).map fun c => (r, c)

/-- BannerCollageMaker.py lines 132-140: walk the cells keeping `fav_idx` and
`other_idx`; a center cell takes the next favourite, any other cell the next
general image. Records which source path each cell receives. (`List.getD`
with default `""` stands for Python indexing; the index never leaves the
list under the length side conditions proved below.) -/
def assignLoop (favsP othersP : List String) :
    List (Nat × Nat) → Nat → Nat → List ((Nat × Nat) × String)
  | [], _, _ => []
  | rc :: rest, fav_idx, other_idx =>
    if inCenter rc.1 rc.2 then
      (rc, favsP.getD fav_idx "") :: assignLoop favsP othersP rest (fav_idx + 1) other_idx
    else
      (rc, othersP.getD other_idx "") :: assignLoop favsP othersP rest fav_idx (other_idx + 1)

/-- The full cell → source-image assignment made by `make_banner`
(BannerCollageMaker.py lines 132-140), with both indices starting at 0. -/
def make_banner_assignment (favsP othersP : List String) : List ((Nat × Nat) × String) :=
  assignLoop favsP othersP cellList 0 0

/-- An RGB raster with pixel contents, for the vignette filter. -/
structure Canvas where
  w : Nat
  h : Nat
  pix : Nat → Nat → Nat × Nat × Nat

/-- BannerCollageMaker.py line 70: `radius = int(max_radius * i / 100)` with
`max_radius = math.hypot(w / 2, h / 2) = sqrt(w^2 + h^2) / 2`. The float
square root is modelled by the integer square root; only determinism of the
mask matters for the properties proved below. -/
def maskRadius (w h i : Nat) : Nat :=
  Nat.sqrt (w ^ 2 + h ^ 2) * i / 200

/-- BannerCollageMaker.py line 71: `alpha = int(255 * (i / 100) ** 2)`. -/
def maskAlpha (i : Nat) : Nat :=
  255 * i ^ 2 / 10000

/-- BannerCollageMaker.py lines 66-72: the single-channel mask after drawing
the 100 concentric ellipses centred at `(w/2, h/2)`; each later (larger)
ellipse overwrites the pixels it covers. The containment test is the circle
equation cleared of halves: `(2x - w)^2 + (2y - h)^2 <= (2r)^2`. -/
def drawnMask (w h x y : Nat) : Nat :=
  (List.range 100).foldl
    (fun acc i =>
      if (2 * (x : ℤ) - w) ^ 2 + (2 * (y : ℤ) - h) ^ 2 ≤ (2 * (maskRadius w h i : ℤ)) ^ 2
      then maskAlpha i else acc)
    0

/-- The in-range column (resp. row) indices of the 161-wide blur window
centred at `x`, clamped to `[0, n)`. -/
def blurWindow (n x : Nat) : List Nat :=
  (List.range 161).filterMap fun d =>
    if 0 ≤ (x : ℤ) + d - 80 ∧ (x : ℤ) + d - 80 < n then some ((x : ℤ) + d - 80).toNat
    else none

/-- BannerCollageMaker.py line 73: `GaussianBlur(80)` applied to the drawn
mask, modelled as the deterministic mean over the 161x161 window (the exact
float Gaussian kernel is not representable; only determinism matters for the
properties proved below). -/
def blurredMask (w h x y : Nat) : Nat :=
  let us := blurWindow w x
  let vs := blurWindow h y
  (us.map fun u => (vs.map fun v => drawnMask w h u v).sum).sum /
    (us.length * vs.length)

/-- BannerCollageMaker.py lines 64-75: invert the blurred mask
(`ImageOps.invert`), scale it by `strength` (`point(lambda p: int(p *
strength))`), and blend the canvas towards solid black with it
(`Image.composite(dark_overlay, im, mask)`): each output channel is
`c * (255 - m) / 255` where `m` is the scaled mask value. -/
def add_vignette (im : Canvas) (strength : ℚ) : Canvas :=
  { w := im.w, h := im.h,
    pix := fun x y =>
      let m := ⌊strength * ((255 : ℚ) - blurredMask im.w im.h x y)⌋.toNat
      let c := im.pix x y
      (c.1 * (255 - m) / 255, c.2.1 * (255 - m) / 255, c.2.2 * (255 - m) / 255) }

/-! ## Helper lemmas -/

lemma listRepeat_length (l : List α) (k : Nat) :
    (listRepeat l k).length = k * l.length := by
  induction k with
  | zero => simp [listRepeat]
  | succ k ih => simp [listRepeat, ih, Nat.succ_mul, Nat.add_comm]

lemma mem_listRepeat {l : List α} {k : Nat} {x : α} (hx : x ∈ listRepeat l k) :
    x ∈ l := by
  induction k with
  | zero => simp [listRepeat] at hx
  | succ k ih =>
    rcases List.mem_append.mp hx with h | h
    · exact h
    · exact ih h

lemma listRepeat_expand_ge (pool : List α) (n : Nat) (h : 1 ≤ pool.length) :
    n ≤ (listRepeat pool (n / pool.length + 1)).length := by
  rw [listRepeat_length]
  have h1 := Nat.div_add_mod n pool.length
  have h2 := Nat.mod_lt n h
  have h3 : (n / pool.length + 1) * pool.length =
      pool.length * (n / pool.length) + pool.length := by ring
  omega

/-! ## C4: `fit_crop` output dimensions -/

/-- C4: for every input image with positive width and height and every
positive target width `tw` and height `th`, `fit_crop img tw th` has
dimensions exactly `(tw, th)`, whatever the input aspect ratio. -/
theorem C4_fit_crop_dims (img : Img) (tw th : Nat)
    (hw : 0 < img.w) (hh : 0 < img.h) (htw : 0 < tw) (hth : 0 < th) :
    (fit_crop img tw th).w = tw ∧ (fit_crop img tw th).h = th :=
  ⟨rfl, rfl⟩

/-- Witness for C4 at a concrete wide input. -/
theorem C4_fit_crop_dims_witness :
    (fit_crop ⟨7, 5⟩ 3 2).w = 3 ∧ (fit_crop ⟨7, 5⟩ 3 2).h = 2 :=
  C4_fit_crop_dims ⟨7, 5⟩ 3 2 (by decide) (by decide) (by decide) (by decide)

/-! ## C5: frame-and-mat output dimensions -/

/-- C5: whenever `add_frame_and_mat` succeeds, each output axis equals the
center-cropped photo's axis plus `2 * (MAT_THICKNESS + FRAME_THICKNESS)`
(= 260 pixels), via the two successive uniform border expansions. -/
theorem C5_frame_mat_dims (photo out : Img)
    (h : add_frame_and_mat photo = some out) :
    out.w = (cropped_photo photo).w + 2 * (MAT_THICKNESS + FRAME_THICKNESS) ∧
    out.h = (cropped_photo photo).h + 2 * (MAT_THICKNESS + FRAME_THICKNESS) := by
  simp only [add_frame_and_mat] at h
  split at h
  · exact Option.noConfusion h
  · injection h with h
    subst h
    constructor <;>
      simp [expand, MAT_THICKNESS, FRAME_THICKNESS] <;> ring

/-- Witness for C5 at a concrete 30x20 landscape photo (already 3:2, so the
crop is the identity and the output is 290x280). -/
theorem C5_frame_mat_dims_witness :
    (Img.mk 290 280).w = (cropped_photo ⟨30, 20⟩).w + 2 * (MAT_THICKNESS + FRAME_THICKNESS) ∧
    (Img.mk 290 280).h = (cropped_photo ⟨30, 20⟩).h + 2 * (MAT_THICKNESS + FRAME_THICKNESS) :=
  C5_frame_mat_dims ⟨30, 20⟩ ⟨290, 280⟩ (by
    norm_num [add_frame_and_mat, cropped_photo, target_aspect, expand,
      MAT_THICKNESS, FRAME_THICKNESS])

/-! ## C6: pool expansion covers the slot count -/

/-- C6: for every pool of size at least 1 and every slot count `n`, the pool
repeated `n / len(pool) + 1` times has length at least `n`, so taking the
first `n` elements yields exactly `n` entries. -/
theorem C6_pool_expansion (pool : List String) (n : Nat) (h : 1 ≤ pool.length) :
    n ≤ (listRepeat pool (n / pool.length + 1)).length ∧
    ((listRepeat pool (n / pool.length + 1)).take n).length = n := by
  have hg := listRepeat_expand_ge pool n h
  refine ⟨hg, ?_⟩
  rw [List.length_take]
  omega

/-- Witness for C6 with a singleton pool and five slots. -/
theorem C6_pool_expansion_witness :
    5 ≤ (listRepeat ["a"] (5 / (["a"] : List String).length + 1)).length ∧
    ((listRepeat ["a"] (5 / (["a"] : List String).length + 1)).take 5).length = 5 :=
  C6_pool_expansion ["a"] 5 (by decide)

/-! ## C9: square photos in `add_frame_and_mat` -/

/-- C9 as stated is false at a concrete input: a 7x7 square photo is
center-cropped to width 5, not to `int((2/3)*7) = 4` — the crop box
`(offset, 0, iw - offset, ih)` with `offset = (iw - new_width) // 2` keeps
`new_width + 1` columns when `iw - new_width` is odd. -/
theorem C9_counterexample :
    ¬ ((cropped_photo ⟨7, 7⟩).w = ⌊(2 : ℚ) / 3 * 7⌋.toNat) := by
  norm_num [cropped_photo, target_aspect, crop, abs_of_pos]
  decide

/-- C9 amended: a square photo is classified as portrait (`is_landscape`
requires strictly greater width), the 2:3 target aspect is selected, the
height is kept, and the center-crop keeps
`iw - 2 * ((iw - int((2/3)*ih)) // 2)` columns — `int((2/3)*ih)` of them
when `ih - int((2/3)*ih)` is even, one more when it is odd. -/
theorem C9_square_portrait (photo : Img) (hsq : photo.w = photo.h)
    (hpos : 0 < photo.h) :
    ¬ (photo.w > photo.h) ∧ target_aspect photo = 2 / 3 ∧
    (cropped_photo photo).w
      = photo.w - 2 * ((photo.w - ⌊(2 : ℚ) / 3 * (photo.h : ℚ)⌋.toNat) / 2) ∧
    (cropped_photo photo).h = photo.h := by
  obtain ⟨w, h⟩ := photo
  simp only at hsq hpos
  subst hsq
  have hne : ((w : ℚ)) ≠ 0 := by exact_mod_cast hpos.ne'
  have hta : target_aspect ⟨w, w⟩ = 2 / 3 := by simp [target_aspect]
  have hia : ((w : ℚ)) / ((w : ℚ)) = 1 := div_self hne
  have hcond1 : |((w : ℚ)) / ((w : ℚ)) - target_aspect ⟨w, w⟩| > 1 / 100 := by
    rw [hia, hta, show (1 : ℚ) - 2 / 3 = 1 / 3 by norm_num,
      abs_of_pos (by norm_num)]
    norm_num
  have hcond2 : ((w : ℚ)) / ((w : ℚ)) > target_aspect ⟨w, w⟩ := by
    rw [hia, hta]; norm_num
  have hcp : cropped_photo ⟨w, w⟩ =
      crop ⟨w, w⟩ ((w - ⌊(2 : ℚ) / 3 * (w : ℚ)⌋.toNat) / 2) 0
        (w - (w - ⌊(2 : ℚ) / 3 * (w : ℚ)⌋.toNat) / 2) w := by
    simp only [cropped_photo]
    rw [if_pos hcond1, if_pos hcond2, hta]
  refine ⟨lt_irrefl w, hta, ?_, ?_⟩ <;> rw [hcp] <;> simp only [crop] <;> omega

/-- Witness for the amended C9 at a concrete 7x7 photo. -/
theorem C9_square_portrait_witness :
    ¬ ((Img.mk 7 7).w > (Img.mk 7 7).h) ∧ target_aspect ⟨7, 7⟩ = 2 / 3 ∧
    (cropped_photo ⟨7, 7⟩).w
      = (Img.mk 7 7).w - 2 * (((Img.mk 7 7).w - ⌊(2 : ℚ) / 3 * ((Img.mk 7 7).h : ℚ)⌋.toNat) / 2) ∧
    (cropped_photo ⟨7, 7⟩).h = (Img.mk 7 7).h :=
  C9_square_portrait ⟨7, 7⟩ rfl (by decide)

/-! ## C10: empty API key -/

/-- C10: with an empty `API_KEY`, `generate_mockup_with_gemini` returns
`None` having made zero HTTP attempts and zero back-off sleeps. -/
theorem C10_empty_key (apiKey : String) (resp : Nat → GeminiResp)
    (hk : apiKey = "") :
    generate_mockup_with_gemini apiKey resp = (none, [], 0) := by
  subst hk
  rfl

/-- Witness for C10. -/
theorem C10_empty_key_witness :
    generate_mockup_with_gemini "" (fun _ => GeminiResp.ok 0) = (none, [], 0) :=
  C10_empty_key "" (fun _ => GeminiResp.ok 0) rfl

/-! ## C1: the 429 retry loop -/

/-- An attempt oracle returning 429 on attempts 0, 1, 2 and an image on any
later attempt. -/
def resp429 : Nat → GeminiResp :=
  fun n => if n < 3 then GeminiResp.httpErr 429 else GeminiResp.ok 7

/-- C1 as stated is false at a concrete input: with 429 on the first three
attempts and an image available from the fourth on, the client does NOT
perform 3 retries with delays 5, 10, 20 and succeed on a fourth attempt —
`max_retries = 3` bounds the total number of attempts, so the third 429 is
terminal. -/
theorem C1_counterexample :
    ¬ ((generate_mockup_with_gemini "key" resp429).1 = some 7 ∧
       (generate_mockup_with_gemini "key" resp429).2.1 = [5, 10, 20]) := by
  decide

/-- C1 amended: when the HTTP POST returns 429 on each of the first three
attempts, exactly 2 retries occur, with back-off delays of 5s then 10s (base
delay 5, doubling each attempt); the third attempt's 429 is terminal and the
client returns `None` after exactly 3 POST attempts — a fourth attempt is
never made, even if it would succeed. -/
theorem C1_retry_backoff (apiKey : String) (resp : Nat → GeminiResp)
    (hk : apiKey ≠ "") (h0 : resp 0 = GeminiResp.httpErr 429)
    (h1 : resp 1 = GeminiResp.httpErr 429) (h2 : resp 2 = GeminiResp.httpErr 429) :
    generate_mockup_with_gemini apiKey resp = (none, [5, 10], 3) := by
  simp only [generate_mockup_with_gemini, if_neg hk]
  norm_num [max_retries, show (3 : Nat) = 2 + 1 from rfl, geminiLoop,
    h0, h1, h2, RETRY_DELAY]

/-- Witness for the amended C1 on the concrete oracle `resp429`. -/
theorem C1_retry_backoff_witness :
    generate_mockup_with_gemini "key" resp429 = (none, [5, 10], 3) :=
  C1_retry_backoff "key" resp429 (by decide) rfl rfl rfl

/-! ## C7: vignette determinism -/

/-- C7: the vignette filter takes no source of randomness — its output is a
function of the input canvas and the strength alone, so two invocations on
pixel-identical canvases with equal strength give pixel-identical outputs. -/
theorem C7_vignette_deterministic (im1 im2 : Canvas) (s1 s2 : ℚ)
    (him : im1 = im2) (hs : s1 = s2) :
    add_vignette im1 s1 = add_vignette im2 s2 := by
  rw [him, hs]

/-- A concrete 1x1 all-black canvas. -/
def testCanvas : Canvas := ⟨1, 1, fun _ _ => (0, 0, 0)⟩

/-- Witness for C7 at the default strength 0.4. -/
theorem C7_vignette_deterministic_witness :
    add_vignette testCanvas (2 / 5) = add_vignette testCanvas (2 / 5) :=
  C7_vignette_deterministic testCanvas testCanvas (2 / 5) (2 / 5) rfl rfl

/-! ## C8: safety-blocked responses -/

/-- C8: a first candidate finishing with reason `SAFETY` makes the client
abandon the scene immediately — it returns `None` after exactly one POST
attempt with no back-off sleep — and the enclosing scene loop performs no
save for that scene and continues with the remaining scenes on an unchanged
filesystem. -/
theorem C8_safety_block (apiKey : String) (resp : Nat → GeminiResp)
    (stem : String) (frameRes : Option Nat) (gem : String → Option Nat)
    (scenes : List String) (fs : String → Option Nat) (f : Nat) (s : String)
    (hk : apiKey ≠ "") (h0 : resp 0 = GeminiResp.safety)
    (hg : gem s = (generate_mockup_with_gemini apiKey resp).1)
    (hfs : fs (outName stem s) = none) :
    generate_mockup_with_gemini apiKey resp = (none, [], 1) ∧
    sceneLoop stem frameRes gem (s :: scenes) (some f) fs =
      (Event.netCall s :: (sceneLoop stem frameRes gem scenes (some f) fs).1,
       (sceneLoop stem frameRes gem scenes (some f) fs).2) := by
  have hgen : generate_mockup_with_gemini apiKey resp = (none, [], 1) := by
    simp [generate_mockup_with_gemini, if_neg hk, max_retries,
      show (3 : Nat) = 2 + 1 from rfl, geminiLoop, h0]
  have hgs : gem s = none := by rw [hg, hgen]
  refine ⟨hgen, ?_⟩
  simp [sceneLoop, hfs, hgs]

/-- Witness for C8: a concrete safety-blocked call inside a one-scene loop. -/
theorem C8_safety_block_witness :
    generate_mockup_with_gemini "k" (fun _ => GeminiResp.safety) = (none, [], 1) ∧
    sceneLoop "a" none (fun _ => none) ["x"] (some 0) (fun _ => none) =
      (Event.netCall "x" ::
         (sceneLoop "a" none (fun _ => none) [] (some 0) (fun _ => none)).1,
       (sceneLoop "a" none (fun _ => none) [] (some 0) (fun _ => none)).2) :=
  C8_safety_block "k" (fun _ => GeminiResp.safety) "a" none (fun _ => none)
    [] (fun _ => none) 0 "x" (by decide) rfl (by decide) rfl

/-! ## C3: resumability of the mockup pipeline -/

lemma sceneLoop_fs_mono (stem : String) (frameRes : Option Nat)
    (gem : String → Option Nat) (scenes : List String) :
    ∀ (framed : Option Nat) (fs : String → Option Nat) (p : String) (v : Nat),
      fs p = some v → (sceneLoop stem frameRes gem scenes framed fs).2 p = some v := by
  induction scenes with
  | nil =>
    intro framed fs p v h
    simpa [sceneLoop] using h
  | cons scene rest ih =>
    intro framed fs p v h
    by_cases hex : (fs (outName stem scene)).isSome = true
    · simpa [sceneLoop, hex] using ih framed fs p v h
    · have hnone : fs (outName stem scene) = none := by
        cases hfs : fs (outName stem scene) with
        | none => rfl
        | some u => rw [hfs] at hex; simp at hex
      have hp : p ≠ outName stem scene := by
        intro hpe
        rw [hpe, hnone] at h
        cases h
      cases framed with
      | some f =>
        cases hgem : gem scene with
        | some img =>
          have h' : (fun q => if q = outName stem scene then some img else fs q) p
              = some v := by simp [if_neg hp, h]
          simpa [sceneLoop, hnone, hgem] using ih (some f) _ p v h'
        | none =>
          simpa [sceneLoop, hnone, hgem] using ih (some f) fs p v h
      | none =>
        cases frameRes with
        | none => simpa [sceneLoop, hnone] using h
        | some f =>
          cases hgem : gem scene with
          | some img =>
            have h' : (fun q => if q = outName stem scene then some img else fs q) p
                = some v := by simp [if_neg hp, h]
            simpa [sceneLoop, hnone, hgem] using ih (some f) _ p v h'
          | none =>
            simpa [sceneLoop, hnone, hgem] using ih (some f) fs p v h

lemma sceneLoop_skips (stem : String) (frameRes : Option Nat)
    (gem : String → Option Nat) (scenes : List String) :
    ∀ (framed : Option Nat) (fs : String → Option Nat) (s : String) (v : Nat),
      fs (outName stem s) = some v →
      Event.netCall s ∉ (sceneLoop stem frameRes gem scenes framed fs).1 ∧
      Event.framing s ∉ (sceneLoop stem frameRes gem scenes framed fs).1 ∧
      ∀ img : Nat, Event.save s img ∉ (sceneLoop stem frameRes gem scenes framed fs).1 := by
  induction scenes with
  | nil =>
    intro framed fs s v h
    simp [sceneLoop]
  | cons scene rest ih =>
    intro framed fs s v h
    by_cases hex : (fs (outName stem scene)).isSome = true
    · have hrest := ih framed fs s v h
      simp only [sceneLoop, hex, if_true, List.mem_cons]
      refine ⟨?_, ?_, fun img => ?_⟩
      · rintro (he | hm)
        · cases he
        · exact hrest.1 hm
      · rintro (he | hm)
        · cases he
        · exact hrest.2.1 hm
      · rintro (he | hm)
        · cases he
        · exact hrest.2.2 img hm
    · have hnone : fs (outName stem scene) = none := by
        cases hfs : fs (outName stem scene) with
        | none => rfl
        | some u => rw [hfs] at hex; simp at hex
      have hsne : s ≠ scene := by
        intro he
        rw [he, hnone] at h
        cases h
      cases framed with
      | some f =>
        cases hgem : gem scene with
        | some img0 =>
          have h' : (fun q => if q = outName stem scene then some img0 else fs q)
              (outName stem s) = some v := by
            have : outName stem s ≠ outName stem scene := by
              intro he
              rw [he, hnone] at h
              cases h
            simp [if_neg this, h]
          have hrest := ih (some f)
            (fun q => if q = outName stem scene then some img0 else fs q) s v h'
          simp only [sceneLoop, hnone, Option.isSome_none, Bool.false_eq_true,
            if_false, hgem, List.mem_cons]
          refine ⟨?_, ?_, fun img => ?_⟩
          · rintro (he | he | hm)
            · exact hsne (by injection he)
            · cases he
            · exact hrest.1 hm
          · rintro (he | he | hm)
            · cases he
            · cases he
            · exact hrest.2.1 hm
          · rintro (he | he | hm)
            · cases he
            · exact hsne (by injection he)
            · exact hrest.2.2 img hm
        | none =>
          have hrest := ih (some f) fs s v h
          simp only [sceneLoop, hnone, Option.isSome_none, Bool.false_eq_true,
            if_false, hgem, List.mem_cons]
          refine ⟨?_, ?_, fun img => ?_⟩
          · rintro (he | hm)
            · exact hsne (by injection he)
            · exact hrest.1 hm
          · rintro (he | hm)
            · cases he
            · exact hrest.2.1 hm
          · rintro (he | hm)
            · cases he
            · exact hrest.2.2 img hm
      | none =>
        cases frameRes with
        | none =>
          simp only [sceneLoop, hnone, Option.isSome_none, Bool.false_eq_true,
            if_false, List.mem_cons]
          refine ⟨?_, ?_, fun img => ?_⟩
          · rintro (he | hm)
            · cases he
            · simp at hm
          · rintro (he | hm)
            · exact hsne (by injection he)
            · simp at hm
          · rintro (he | hm)
            · cases he
            · simp at hm
        | some f =>
          cases hgem : gem scene with
          | some img0 =>
            have h' : (fun q => if q = outName stem scene then some img0 else fs q)
                (outName stem s) = some v := by
              have : outName stem s ≠ outName stem scene := by
                intro he
                rw [he, hnone] at h
                cases h
              simp [if_neg this, h]
            have hrest := ih (some f)
              (fun q => if q = outName stem scene then some img0 else fs q) s v h'
            simp only [sceneLoop, hnone, Option.isSome_none, Bool.false_eq_true,
              if_false, hgem, List.mem_cons]
            refine ⟨?_, ?_, fun img => ?_⟩
            · rintro (he | he | he | hm)
              · cases he
              · exact hsne (by injection he)
              · cases he
              · exact hrest.1 hm
            · rintro (he | he | he | hm)
              · exact hsne (by injection he)
              · cases he
              · cases he
              · exact hrest.2.1 hm
            · rintro (he | he | he | hm)
              · cases he
              · cases he
              · exact hsne (by injection he)
              · exact hrest.2.2 img hm
          | none =>
            have hrest := ih (some f) fs s v h
            simp only [sceneLoop, hnone, Option.isSome_none, Bool.false_eq_true,
              if_false, hgem, List.mem_cons]
            refine ⟨?_, ?_, fun img => ?_⟩
            · rintro (he | he | hm)
              · cases he
              · exact hsne (by injection he)
              · exact hrest.1 hm
            · rintro (he | he | hm)
              · exact hsne (by injection he)
              · cases he
              · exact hrest.2.1 hm
            · rintro (he | he | hm)
              · cases he
              · cases he
              · exact hrest.2.2 img hm

/-- C3: when the output file for scene `s` already exists at the start of the
per-photo loop, the loop never calls the API for `s`, never frames for `s`,
never saves for `s`, and leaves the existing file's content unchanged.
(`framed` starts as `none`, exactly as `framed_art = None` in `main`.) -/
theorem C3_resumable (stem : String) (frameRes : Option Nat)
    (gem : String → Option Nat) (scenes : List String)
    (fs : String → Option Nat) (s : String) (v img : Nat)
    (hmem : s ∈ scenes) (h : fs (outName stem s) = some v) :
    Event.netCall s ∉ (sceneLoop stem frameRes gem scenes none fs).1 ∧
    Event.framing s ∉ (sceneLoop stem frameRes gem scenes none fs).1 ∧
    Event.save s img ∉ (sceneLoop stem frameRes gem scenes none fs).1 ∧
    (sceneLoop stem frameRes gem scenes none fs).2 (outName stem s) = some v := by
  have hs := sceneLoop_skips stem frameRes gem scenes none fs s v h
  exact ⟨hs.1, hs.2.1, hs.2.2 img,
    sceneLoop_fs_mono stem frameRes gem scenes none fs (outName stem s) v h⟩

/-- Witness for C3: scene `x` of photo `a` already has an output file; scene
`y` does not and gets generated, leaving `x`'s file untouched. -/
theorem C3_resumable_witness :
    Event.netCall "x" ∉ (sceneLoop "a" (some 5) (fun _ => some 9) ["x", "y"] none
      (fun p => if p = "a_x_mockup.jpg" then some 1 else none)).1 ∧
    Event.framing "x" ∉ (sceneLoop "a" (some 5) (fun _ => some 9) ["x", "y"] none
      (fun p => if p = "a_x_mockup.jpg" then some 1 else none)).1 ∧
    Event.save "x" 9 ∉ (sceneLoop "a" (some 5) (fun _ => some 9) ["x", "y"] none
      (fun p => if p = "a_x_mockup.jpg" then some 1 else none)).1 ∧
    (sceneLoop "a" (some 5) (fun _ => some 9) ["x", "y"] none
      (fun p => if p = "a_x_mockup.jpg" then some 1 else none)).2 "a_x_mockup.jpg" = some 1 :=
  C3_resumable "a" (some 5) (fun _ => some 9) ["x", "y"]
    (fun p => if p = "a_x_mockup.jpg" then some 1 else none) "x" 1 9
    (by decide) (by decide)

/-! ## C2: the banner grid assignment -/

lemma assignLoop_map_fst (favsP othersP : List String) :
    ∀ (cells : List (Nat × Nat)) (fi oi : Nat),
      (assignLoop favsP othersP cells fi oi).map Prod.fst = cells := by
  intro cells
  induction cells with
  | nil => intro fi oi; rfl
  | cons rc rest ih =>
    intro fi oi
    by_cases hc : inCenter rc.1 rc.2 = true
    · simp [assignLoop, hc, ih]
    · simp [assignLoop, hc, ih]

lemma assignLoop_mem_pools (favsP othersP : List String) :
    ∀ (cells : List (Nat × Nat)) (fi oi : Nat),
      fi + cells.countP (fun rc => inCenter rc.1 rc.2) ≤ favsP.length →
      oi + cells.countP (fun rc => !inCenter rc.1 rc.2) ≤ othersP.length →
      ∀ rc img, (rc, img) ∈ assignLoop favsP othersP cells fi oi →
        (inCenter rc.1 rc.2 = true → img ∈ favsP) ∧
        (inCenter rc.1 rc.2 = false → img ∈ othersP) := by
  intro cells
  induction cells with
  | nil =>
    intro fi oi _ _ rc img hmem
    simp [assignLoop] at hmem
  | cons c0 rest ih =>
    intro fi oi hf ho rc img hmem
    by_cases hc : inCenter c0.1 c0.2 = true
    · rw [List.countP_cons] at hf ho
      simp only [hc, if_true, Bool.not_true, Bool.false_eq_true, if_false] at hf ho
      rw [assignLoop, if_pos hc] at hmem
      rcases List.mem_cons.mp hmem with he | hm
      · have h1 : rc = c0 := congrArg Prod.fst he
        have h2 : img = favsP.getD fi "" := congrArg Prod.snd he
        have hlt : fi < favsP.length := by omega
        refine ⟨fun _ => ?_, fun hff => ?_⟩
        · rw [h2, List.getD_eq_getElem favsP "" hlt]
          exact List.getElem_mem hlt
        · rw [h1] at hff
          rw [hff] at hc
          cases hc
      · exact ih (fi + 1) oi (by omega) (by omega) rc img hm
    · have hcf : inCenter c0.1 c0.2 = false := by
        cases hcc : inCenter c0.1 c0.2 with
        | true => exact absurd hcc hc
        | false => rfl
      rw [List.countP_cons] at hf ho
      simp only [hcf, Bool.not_false, Bool.false_eq_true, if_false, if_true] at hf ho
      rw [assignLoop, if_neg hc] at hmem
      rcases List.mem_cons.mp hmem with he | hm
      · have h1 : rc = c0 := congrArg Prod.fst he
        have h2 : img = othersP.getD oi "" := congrArg Prod.snd he
        have hlt : oi < othersP.length := by omega
        refine ⟨fun htt => ?_, fun _ => ?_⟩
        · rw [h1] at htt
          rw [htt] at hcf
          cases hcf
        · rw [h2, List.getD_eq_getElem othersP "" hlt]
          exact List.getElem_mem hlt
      · exact ih fi (oi + 1) (by omega) (by omega) rc img hm

/-- C2: in `make_banner`'s grid, every cell `(r, c)` of the 15x6 layout is
assigned exactly one source image, and that image belongs to the favourites
pool exactly when the cell lies in the centred 7x2 block (rows 2-3, columns
4-10). `favsP` and `othersP` are the shuffled expanded pools — arbitrary
permutations of the repeated-and-truncated `favs` and `others` lists — and
the two pools are disjoint, as guaranteed by the basename filtering of
lines 103-105. -/
theorem C2_grid_assignment (favs others favsP othersP : List String)
    (r c : Nat) (img : String)
    (hf : favs ≠ []) (ho : others ≠ [])
    (hpf : favsP.Perm (favs_to_place favs))
    (hpo : othersP.Perm (others_to_place others))
    (hd : ∀ x, x ∈ favs → x ∉ others)
    (hr : r < total_rows) (hc : c < total_cols)
    (hmem : ((r, c), img) ∈ make_banner_assignment favsP othersP) :
    ((make_banner_assignment favsP othersP).map Prod.fst).countP
      (fun rc => decide (rc = (r, c))) = 1 ∧
    (img ∈ favs ↔ inCenter r c = true) := by
  have hmap : (make_banner_assignment favsP othersP).map Prod.fst = cellList :=
    assignLoop_map_fst favsP othersP cellList 0 0
  have hnodup : cellList.Nodup := by decide
  have hmemcell : (r, c) ∈ cellList := by
    simp only [cellList, List.mem_flatMap, List.mem_map, List.mem_range]
    exact ⟨r, hr, c, hc, rfl⟩
  have hflen : 1 ≤ favs.length := List.length_pos.mpr hf
  have holen : 1 ≤ others.length := List.length_pos.mpr ho
  have hfPlen : favsP.length = center_slots := by
    rw [hpf.length_eq, favs_to_place, List.length_take]
    have := listRepeat_expand_ge favs center_slots hflen
    omega
  have hoPlen : othersP.length = outer_slots := by
    rw [hpo.length_eq, others_to_place, List.length_take]
    have := listRepeat_expand_ge others outer_slots holen
    omega
  have hcc : cellList.countP (fun rc => inCenter rc.1 rc.2) = center_slots := by decide
  have hoc : cellList.countP (fun rc => !inCenter rc.1 rc.2) = outer_slots := by decide
  have hpools := assignLoop_mem_pools favsP othersP cellList 0 0
    (by rw [hcc, hfPlen]; omega) (by rw [hoc, hoPlen]; omega)
    (r, c) img hmem
  have hfsub : ∀ x, x ∈ favsP → x ∈ favs := fun x hx =>
    mem_listRepeat (List.mem_of_mem_take (hpf.mem_iff.mp hx))
  have hosub : ∀ x, x ∈ othersP → x ∈ others := fun x hx =>
    mem_listRepeat (List.mem_of_mem_take (hpo.mem_iff.mp hx))
  refine ⟨?_, ?_, ?_⟩
  · rw [hmap]
    exact List.count_eq_one_of_mem hnodup hmemcell
  · intro hin
    cases hb : inCenter r c with
    | true => rfl
    | false =>
      have hothers : img ∈ others := hosub img (hpools.2 hb)
      exact absurd hothers (hd img hin)
  · intro hb
    exact hfsub img (hpools.1 hb)

/-- Witness for C2 with singleton pools (unshuffled, i.e. the identity
permutation of the expanded pools) at the top-left centre cell (2, 4). -/
theorem C2_grid_assignment_witness :
    ((make_banner_assignment (favs_to_place ["f"]) (others_to_place ["o"])).map
        Prod.fst).countP (fun rc => decide (rc = (2, 4))) = 1 ∧
    ("f" ∈ (["f"] : List String) ↔ inCenter 2 4 = true) :=
  C2_grid_assignment ["f"] ["o"] (favs_to_place ["f"]) (others_to_place ["o"])
    2 4 "f" (by decide) (by decide) (List.Perm.refl _) (List.Perm.refl _)
    (by decide) (by decide) (by decide) (by decide)

end Etsy
